import Mathlib

/-!
Verification of the churn-ingestion producer script
(src/kafka_producer_churn.py) against its specification.

The script reads a CSV file into a data frame, creates a Kafka producer
whose value serializer is lambda x: json.dumps(x).encode('utf-8'),
sends one message per row (value = row.to_dict(), no key argument) to
the topic churn_input_topic, flushes, and prints a success line.

The embedding below models scalar cell values, rows as ordered
field-name-to-value mappings, the JSON serialization, the filesystem
(so that read failures and frame conditions are expressible), and the
run of the script as a pure function from the filesystem to an event
trace (sends, flush, print) plus the unchanged filesystem.
-/

/-- A scalar cell value of a data-frame row: string, integer, boolean
or null, as produced by reading a CSV and serialized by json.dumps. -/
inductive Value where
  | vStr (s : String)
  | vInt (n : Int)
  | vBool (b : Bool)
  | vNull
deriving DecidableEq, Repr

/-- A row as an ordered mapping from field name to scalar value,
which is what row.to_dict() yields for a pandas Series (dict order is
the column order). -/
def Row : Type := List (String × Value)

instance : DecidableEq Row := by
  unfold Row
  infer_instance

/-- A Series is modelled directly as its field-name-to-value mapping,
so Series.to_dict is the identity on that mapping. -/
def to_dict (row : Row) : Row := row

/-- Escape one character as json.dumps does for the characters our
value model can require escaping (quote and backslash); other
characters pass through unchanged. -/
def escapeChar (c : Char) : String :=
  if c = '"' then "\\\"" else if c = '\\' then "\\\\" else String.singleton c

/-- Escape a string body for JSON output. -/
def escapeString (s : String) : String :=
  String.join (s.toList.map escapeChar)

/-- A JSON string literal: quoted, escaped body. -/
def jsonQuote (s : String) : String :=
  "\"" ++ escapeString s ++ "\""

/-- Serialize one scalar value as json.dumps renders it. -/
def dumpValue : Value → String
  | .vStr s => jsonQuote s
  | .vInt n => toString n
  | .vBool b => if b then "true" else "false"
  | .vNull => "null"

/-- Serialize one key/value pair of a dict. -/
def dumpPair (p : String × Value) : String :=
  jsonQuote p.1 ++ ": " ++ dumpValue p.2

/-- json.dumps on a dict: brace-delimited, comma-separated pairs in
insertion order. -/
def json_dumps (r : Row) : String :=
  "\x7b" ++ String.intercalate ", " (r.map dumpPair) ++ "\x7d"

/-- str.encode('utf-8'): the UTF-8 bytes of a string, as naturals
(the byte list underlying String.toUTF8). -/
def utf8Encode (s : String) : List Nat :=
  (s.data.flatMap String.utf8EncodeChar).map UInt8.toNat

/-- The value serializer of the producer, embedding
lambda x: json.dumps(x).encode('utf-8') from the KafkaProducer
construction. -/
def value_serializer (x : Row) : List Nat :=
  utf8Encode (json_dumps x)

/-- The CSV path the script reads. -/
def churnPath : String := "churn_dataset.csv"

/-- The topic the script publishes to. -/
def churnTopic : String := "churn_input_topic"

/-- The success line the script prints after the flush. -/
def successLine : String := "✅ Data sent to Kafka topic: churn_input_topic"

/-- A file as the reader sees it: absent, present but not parseable
as a CSV table, or a parsed table of rows. CSV parsing itself is an
external collaborator, so a readable file is modelled directly by the
rows it parses to. -/
inductive CsvFile where
  | missing
  | corrupt (raw : String)
  | table (rows : List Row)

/-- The filesystem: contents for each path. -/
def FileSystem : Type := String → CsvFile

/-- The exception pd.read_csv raises on an unreadable input:
FileNotFoundError for a missing file, ParserError for a corrupt one.
Uncaught, either aborts the process before any send. -/
inductive ReadError where
  | fileNotFound (path : String)
  | parserError (raw : String)
deriving DecidableEq, Repr

/-- pd.read_csv: the parsed rows of the file at the path, or the
exception it raises when the file is missing or corrupt. -/
def read_csv (path : String) (fs : FileSystem) : Except ReadError (List Row) :=
  match fs path with
  | .missing => .error (.fileNotFound path)
  | .corrupt raw => .error (.parserError raw)
  | .table rows => .ok rows

/-- A message as handed to the broker client by producer.send: topic,
optional key bytes, value bytes (the serializer applied to the value
argument). The script passes no key argument, so the client's default
key None applies. -/
structure SentMessage where
  topic : String
  key : Option (List Nat)
  value : List Nat
deriving DecidableEq, Repr

/-- An observable event of a run: a send handed to the client, the
flush, or a printed line. -/
inductive Event where
  | sendEvent (m : SentMessage)
  | flushEvent
  | printEvent (s : String)
deriving DecidableEq, Repr

/-- The message producer.send builds for one row: the fixed topic, no
key, and the serialized dict of the row as value. -/
def mkMessage (row : Row) : SentMessage :=
  { topic := churnTopic, key := none, value := value_serializer (to_dict row) }

/-- The for-loop over df.iterrows(): one producer.send per row, in
row order, appended to the trace accumulated so far. -/
def sendLoop (rows : List Row) (tr : List Event) : List Event :=
  rows.foldl (fun acc row => acc ++ [Event.sendEvent (mkMessage row)]) tr

/-- Outcome of a run of the script: the event trace, and the uncaught
exception if the read failed. -/
structure RunResult where
  trace : List Event
  error : Option ReadError
deriving DecidableEq, Repr

/-- Process exit status: 0 on success, 1 when an uncaught exception
aborts the interpreter. -/
def exitCode (r : RunResult) : Nat :=
  match r.error with
  | some _ => 1
  | none => 0

/-- The whole script: read the CSV (aborting on failure before the
producer sends anything), send one message per row, flush, print the
success line. The filesystem is returned unchanged: the script never
writes a file. -/
def runScript (fs : FileSystem) : RunResult × FileSystem :=
  match read_csv churnPath fs with
  | .error e => ({ trace := [], error := some e }, fs)
  | .ok rows =>
      ({ trace := sendLoop rows [] ++ [Event.flushEvent, Event.printEvent successLine],
         error := none }, fs)

/-- The messages handed to the client during a run, in trace order. -/
def sentMessages (tr : List Event) : List SentMessage :=
  tr.filterMap (fun e =>
    match e with
    | .sendEvent m => some m
    | _ => none)

/-- The error the specified encoder contract carries for a missing or
mistyped field. The source defines no such type; it is declared here
following the spec's words, to state the encoding contract against the
source's serializer. -/
structure EncodingError where
  field : String
  reason : String
deriving DecidableEq, Repr

/-- The source's encoding step viewed in the result type of the
specified contract: the serializer is a total function to payload
bytes, so viewed in Except it always returns ok and never an error —
the lambda performs no validation of any schema. -/
def encode (r : Row) : Except EncodingError (List Nat) :=
  Except.ok (value_serializer r)

/-- Modelled from the spec: the ProgressTracker component is absent
from the source; its contract is that advance(offset) updates the
checkpoint only if offset > currentCheckpoint. -/
def advance (currentCheckpoint : Nat) (offset : Nat) : Nat :=
  if currentCheckpoint < offset then offset else currentCheckpoint

/-- Modelled from the spec: the checkpoint after a run of
acknowledgment notifications applied in order. -/
def runAdvances (init : Nat) (offsets : List Nat) : Nat :=
  offsets.foldl advance init

/-- Modelled from the spec: the successive checkpoint values stored
along a run of acknowledgment notifications. -/
def checkpointTrace (init : Nat) (offsets : List Nat) : List Nat :=
  offsets.scanl advance init

/-- Modelled from the spec: the DeliveryQueue component is absent from
the source; a bounded FIFO buffer between encoder and publisher,
oldest payload first. -/
structure QueueState where
  buf : List (List Nat)
deriving DecidableEq, Repr

/-- Modelled from the spec: push(Payload) enqueues at the back when
the queue is not full; none means the queue is full and the producing
side blocks (backpressure), taking no effect. -/
def push (C : Nat) (s : QueueState) (p : List Nat) : Option QueueState :=
  if s.buf.length < C then some ⟨s.buf ++ [p]⟩ else none

/-- Modelled from the spec: pop() dequeues the oldest payload when the
queue is nonempty; none means the queue is empty and the consuming
side blocks. -/
def pop (s : QueueState) : Option (List Nat × QueueState) :=
  match s.buf with
  | [] => none
  | p :: rest => some (p, ⟨rest⟩)

/-- An operation attempted on the delivery queue. -/
inductive QOp where
  | pushOp (p : List Nat)
  | popOp
deriving DecidableEq, Repr

/-- One attempted queue operation: a blocked operation leaves the
state unchanged (the caller waits; no effect is taken). -/
def applyOp (C : Nat) (s : QueueState) : QOp → QueueState
  | .pushOp p =>
      match push C s p with
      | some t => t
      | none => s
  | .popOp =>
      match pop s with
      | some r => r.2
      | none => s

/-- The queue state after a sequence of attempted operations starting
from the empty queue. -/
def runOps (C : Nat) (ops : List QOp) : QueueState :=
  ops.foldl (applyOp C) ⟨[]⟩

/-- The serializer in state-passing form, the literal embedding of the
lambda over an explicit program state (filesystem plus messages handed
to the client so far): it reads no state and mutates none. -/
structure PState where
  fs : FileSystem
  sent : List SentMessage

/-- The value serializer threaded through the program state. -/
def value_serializerSt (st : PState) (x : Row) : List Nat × PState :=
  (utf8Encode (json_dumps x), st)

/-- Unfolding the send loop: the trace it builds is the source rows
mapped to their messages, in order, after the prior trace. -/
theorem sendLoop_eq_map (rows : List Row) (tr : List Event) :
    sendLoop rows tr = tr ++ rows.map (fun row => Event.sendEvent (mkMessage row)) := by
  induction rows generalizing tr with
  | nil => simp [sendLoop]
  | cons r rs ih =>
      simp only [sendLoop, List.foldl_cons, List.map_cons] at *
      rw [ih]
      simp

/-- sentMessages distributes over trace concatenation. -/
theorem sentMessages_append (a b : List Event) :
    sentMessages (a ++ b) = sentMessages a ++ sentMessages b := by
  simp [sentMessages]

/-- The messages extracted from a trace of send events are exactly the
messages, in order. -/
theorem sentMessages_map_send (rows : List Row) :
    sentMessages (rows.map (fun row => Event.sendEvent (mkMessage row))) =
      rows.map mkMessage := by
  induction rows with
  | nil => rfl
  | cons r rs ih =>
      simpa [sentMessages, List.filterMap_cons] using ih

/-- A successful run's trace: all sends in row order, then the flush,
then the printed success line; and the run records no error. -/
theorem runScript_ok (fs : FileSystem) (rows : List Row)
    (h : fs churnPath = CsvFile.table rows) :
    (runScript fs).1.trace =
      rows.map (fun row => Event.sendEvent (mkMessage row)) ++
        [Event.flushEvent, Event.printEvent successLine] ∧
    (runScript fs).1.error = none := by
  simp [runScript, read_csv, h, sendLoop_eq_map]

/-- A failed read aborts the run with the exception, an empty trace
and exit status 1. -/
theorem runScript_error (fs : FileSystem) (e : ReadError)
    (h : read_csv churnPath fs = Except.error e) :
    (runScript fs).1.trace = [] ∧ (runScript fs).1.error = some e := by
  simp [runScript, h]

/-- Claim C1: for every input CSV file, the run hands the client
exactly one message per row, and the sequence of messages equals the
sequence of rows of the file, each message's value being that row's
field-name-to-value mapping serialized (to the fixed topic). -/
theorem C1_one_message_per_row (fs : FileSystem) (rows : List Row)
    (h : fs churnPath = CsvFile.table rows) :
    sentMessages (runScript fs).1.trace =
      rows.map (fun row =>
        SentMessage.mk churnTopic none (value_serializer (to_dict row))) := by
  rw [(runScript_ok fs rows h).1, sentMessages_append, sentMessages_map_send]
  have : sentMessages [Event.flushEvent, Event.printEvent successLine] = [] := rfl
  rw [this, List.append_nil]
  rfl

/-- Claim C1 witness at a concrete two-row file. -/
theorem C1_witness :
    sentMessages (runScript (fun _ =>
        CsvFile.table [[("customerID", Value.vStr "7590-VHVEG")], [("tenure", Value.vInt 1)]])).1.trace =
      [[("customerID", Value.vStr "7590-VHVEG")], [("tenure", Value.vInt 1)]].map (fun row =>
        SentMessage.mk churnTopic none (value_serializer (to_dict row))) :=
  C1_one_message_per_row _ _ rfl

/-- Claim C2: no reordering — for any two records with source offsets
i < j, the trace position i holds the send of row i and the trace
position j holds the send of row j, so the message of the earlier
offset is handed to the client strictly before the later one (all
sends carry the same key, none). -/
theorem C2_no_reordering (fs : FileSystem) (rows : List Row)
    (h : fs churnPath = CsvFile.table rows) (i j : Nat)
    (hij : i < j) (hj : j < rows.length) :
    (runScript fs).1.trace.get? i = (rows.get? i).map (fun row => Event.sendEvent (mkMessage row)) ∧
    (runScript fs).1.trace.get? j = (rows.get? j).map (fun row => Event.sendEvent (mkMessage row)) ∧
    (rows.get? i).isSome ∧ (rows.get? j).isSome := by
  have hi : i < rows.length := Nat.lt_trans hij hj
  rw [(runScript_ok fs rows h).1]
  refine ⟨?_, ?_, ?_, ?_⟩
  · rw [List.get?_append (by simpa using hi), List.get?_map]
  · rw [List.get?_append (by simpa using hj), List.get?_map]
  · simp [List.getElem?_eq_getElem hi]
  · simp [List.getElem?_eq_getElem hj]

/-- Claim C2 witness at a concrete two-row file with offsets 0 < 1. -/
theorem C2_witness :
    (runScript (fun _ => CsvFile.table [[("a", Value.vInt 0)], [("a", Value.vInt 1)]])).1.trace.get? 0 =
      (([[("a", Value.vInt 0)], [("a", Value.vInt 1)]] : List Row).get? 0).map
        (fun row => Event.sendEvent (mkMessage row)) ∧
    (runScript (fun _ => CsvFile.table [[("a", Value.vInt 0)], [("a", Value.vInt 1)]])).1.trace.get? 1 =
      (([[("a", Value.vInt 0)], [("a", Value.vInt 1)]] : List Row).get? 1).map
        (fun row => Event.sendEvent (mkMessage row)) ∧
    (([[("a", Value.vInt 0)], [("a", Value.vInt 1)]] : List Row).get? 0).isSome ∧
    (([[("a", Value.vInt 0)], [("a", Value.vInt 1)]] : List Row).get? 1).isSome :=
  C2_no_reordering _ _ rfl 0 1 (by decide) (by decide)

/-- Claim C3 counterexample: the record with every field absent (in
particular, missing any required field of any expected schema) is not
rejected with an EncodingError; encoding silently produces the payload
bytes of the empty JSON object. -/
theorem C3_counterexample :
    encode [] = Except.ok (utf8Encode "\x7b\x7d") ∧
    ([] : Row).lookup "customerID" = none := by
  exact ⟨rfl, rfl⟩

/-- Claim C3 amended: encoding performs no schema validation — for
every record the encoder returns the payload
json.dumps(record).encode('utf-8'), and it never returns an
EncodingError, whatever fields the record has or lacks. -/
theorem C3_amended_no_validation :
    ∀ r : Row, encode r = Except.ok (utf8Encode (json_dumps r)) ∧
      ∀ e : EncodingError, encode r ≠ Except.error e := by
  intro r
  exact ⟨rfl, fun e hc => by cases hc⟩

/-- Claim C4: the checkpoint is monotonically non-decreasing —
advance updates only when offset > currentCheckpoint, a single
advance never decreases the checkpoint, a whole run never decreases
it, and the stored values along any run of acknowledgment
notifications form a non-decreasing chain. -/
theorem C4_checkpoint_monotone :
    (∀ c o : Nat, ¬ c < o → advance c o = c) ∧
    (∀ c o : Nat, c ≤ advance c o) ∧
    (∀ init : Nat, ∀ offsets : List Nat, init ≤ runAdvances init offsets) ∧
    (∀ init : Nat, ∀ offsets : List Nat,
      List.Chain' (fun a b => a ≤ b) (checkpointTrace init offsets)) := by
  have hupd : ∀ c o : Nat, ¬ c < o → advance c o = c := by
    intro c o hco
    simp [advance, hco]
  have hle : ∀ c o : Nat, c ≤ advance c o := by
    intro c o
    by_cases hco : c < o
    · simp [advance, hco]
      exact Nat.le_of_lt hco
    · simp [advance, hco]
  have hrun : ∀ offsets : List Nat, ∀ init : Nat, init ≤ runAdvances init offsets := by
    intro offsets
    induction offsets with
    | nil => intro init; exact Nat.le_refl init
    | cons o os ih =>
        intro init
        exact Nat.le_trans (hle init o) (ih (advance init o))
  have hchain : ∀ offsets : List Nat, ∀ init : Nat,
      List.Chain' (fun a b => a ≤ b) (List.scanl advance init offsets) := by
    intro offsets
    induction offsets with
    | nil => intro init; simp [List.scanl_nil]
    | cons o os ih =>
        intro init
        rw [List.scanl_cons]
        rw [List.singleton_append, List.chain'_cons']
        refine ⟨?_, ih (advance init o)⟩
        intro y hy
        have hhead : (List.scanl advance (advance init o) os).head? = some (advance init o) := by
          cases os <;> simp [List.scanl_nil, List.scanl_cons]
        rw [hhead] at hy
        cases hy
        exact hle init o
  exact ⟨hupd, hle, fun init offsets => hrun offsets init,
    fun init offsets => hchain offsets init⟩

/-- One attempted queue operation preserves the capacity bound. -/
theorem applyOp_length_le (C : Nat) (s : QueueState) (op : QOp)
    (h : s.buf.length ≤ C) : (applyOp C s op).buf.length ≤ C := by
  cases op with
  | pushOp p =>
      by_cases hlt : s.buf.length < C
      · have hsucc : s.buf.length + 1 ≤ C := hlt
        simpa [applyOp, push, hlt] using hsucc
      · simpa [applyOp, push, hlt] using h
  | popOp =>
      cases hb : s.buf with
      | nil => simp [applyOp, pop, hb]
      | cons p rest =>
          have : rest.length ≤ C := by
            have := h
            rw [hb] at this
            simp at this
            omega
          simpa [applyOp, pop, hb] using this

/-- Folding attempted operations preserves the capacity bound. -/
theorem foldl_applyOp_length_le (C : Nat) (ops : List QOp) :
    ∀ s : QueueState, s.buf.length ≤ C →
      (ops.foldl (applyOp C) s).buf.length ≤ C := by
  induction ops with
  | nil => intro s hs; exact hs
  | cons op rest ih =>
      intro s hs
      exact ih (applyOp C s op) (applyOp_length_le C s op hs)

/-- Claim C5: the delivery queue is a bounded FIFO of capacity C — in
every state reachable from empty by attempted operations the length
never exceeds C, push yields no effect (the producer blocks) when the
queue is full, pop yields no effect (the consumer blocks) when the
queue is empty, and pop dequeues the oldest payload. -/
theorem C5_bounded_fifo (C : Nat) :
    (∀ ops : List QOp, (runOps C ops).buf.length ≤ C) ∧
    (∀ s : QueueState, ∀ p : List Nat, ¬ s.buf.length < C → push C s p = none) ∧
    (pop ⟨[]⟩ = none) ∧
    (∀ p : List Nat, ∀ rest : List (List Nat),
      pop ⟨p :: rest⟩ = some (p, ⟨rest⟩)) := by
  refine ⟨?_, ?_, rfl, fun p rest => rfl⟩
  · intro ops
    exact foldl_applyOp_length_le C ops ⟨[]⟩ (Nat.zero_le C)
  · intro s p hfull
    simp [push, hfull]

/-- Claim C5 witness: capacity 2, three pushes from empty stay within
the bound; a full queue rejects a push; the empty queue rejects a pop. -/
theorem C5_witness :
    (runOps 2 [QOp.pushOp [1], QOp.pushOp [2], QOp.pushOp [3]]).buf.length ≤ 2 ∧
    push 2 ⟨[[1], [2]]⟩ [3] = none ∧
    pop ⟨[]⟩ = none :=
  ⟨(C5_bounded_fifo 2).1 _, (C5_bounded_fifo 2).2.1 ⟨[[1], [2]]⟩ [3] (by decide),
    (C5_bounded_fifo 2).2.2.1⟩

/-- Claim C6: when the input file is missing or corrupt the run
records the read exception, the trace is empty (so no message is
handed to the client before the failure), and the process exit status
is 1, hence non-zero. -/
theorem C6_fail_before_any_send (fs : FileSystem) (raw : String)
    (h : fs churnPath = CsvFile.missing ∨ fs churnPath = CsvFile.corrupt raw) :
    (∃ e : ReadError, (runScript fs).1.error = some e) ∧
    sentMessages (runScript fs).1.trace = [] ∧
    (runScript fs).1.trace = [] ∧
    exitCode (runScript fs).1 = 1 ∧
    exitCode (runScript fs).1 ≠ 0 := by
  cases h with
  | inl hm =>
      have he : read_csv churnPath fs = Except.error (ReadError.fileNotFound churnPath) := by
        simp [read_csv, hm]
      have := runScript_error fs _ he
      refine ⟨⟨ReadError.fileNotFound churnPath, this.2⟩, ?_, this.1, ?_, ?_⟩
      · rw [this.1]; rfl
      · simp [exitCode, this.2]
      · simp [exitCode, this.2]
  | inr hc =>
      have he : read_csv churnPath fs = Except.error (ReadError.parserError raw) := by
        simp [read_csv, hc]
      have := runScript_error fs _ he
      refine ⟨⟨ReadError.parserError raw, this.2⟩, ?_, this.1, ?_, ?_⟩
      · rw [this.1]; rfl
      · simp [exitCode, this.2]
      · simp [exitCode, this.2]

/-- Claim C6 witness at the filesystem with every file missing. -/
theorem C6_witness :
    (∃ e : ReadError, (runScript (fun _ => CsvFile.missing)).1.error = some e) ∧
    sentMessages (runScript (fun _ => CsvFile.missing)).1.trace = [] ∧
    (runScript (fun _ => CsvFile.missing)).1.trace = [] ∧
    exitCode (runScript (fun _ => CsvFile.missing)).1 = 1 ∧
    exitCode (runScript (fun _ => CsvFile.missing)).1 ≠ 0 :=
  C6_fail_before_any_send _ "" (Or.inl rfl)

/-- The messages of a successful run are the rows mapped to their
messages, in order. -/
theorem sentMessages_runScript (fs : FileSystem) (rows : List Row)
    (h : fs churnPath = CsvFile.table rows) :
    sentMessages (runScript fs).1.trace = rows.map mkMessage := by
  rw [(runScript_ok fs rows h).1, sentMessages_append, sentMessages_map_send]
  have htail : sentMessages [Event.flushEvent, Event.printEvent successLine] = [] := rfl
  rw [htail, List.append_nil]

/-- Claim C7 counterexample: a concrete run over a one-row file hands
the client a message whose key is absent (None) — producer.send is
called without a key argument, so no per-message key derived from a
record field is attached. -/
theorem C7_counterexample :
    (sentMessages (runScript (fun _ =>
        CsvFile.table [[("customerID", Value.vStr "7590-VHVEG")]])).1.trace).map
      SentMessage.key = [none] := by
  rfl

/-- Claim C7 amended: every message handed to the client in any run
carries no key — the key is None for every record, so partition
routing uses the client's default partitioner, not a record-derived
key. -/
theorem C7_amended_no_key (fs : FileSystem) (rows : List Row)
    (h : fs churnPath = CsvFile.table rows) :
    ∀ m ∈ sentMessages (runScript fs).1.trace, m.key = none := by
  rw [sentMessages_runScript fs rows h]
  intro m hm
  rcases List.mem_map.mp hm with ⟨row, _, hrow⟩
  rw [← hrow]
  rfl

/-- Claim C7 amended witness at a concrete one-row file. -/
theorem C7_witness :
    (mkMessage [("gender", Value.vStr "Female")]).key = none :=
  C7_amended_no_key (fun _ => CsvFile.table [[("gender", Value.vStr "Female")]])
    [[("gender", Value.vStr "Female")]] rfl
    (mkMessage [("gender", Value.vStr "Female")]) (by simp [sentMessages_runScript])

/-- Claim C8: encoding is pure and deterministic — in state-passing
form the serializer leaves the program state unchanged, its output
does not depend on the state (so two runs over the same record yield
the same payload bytes), it agrees with the plain serializer, and two
occurrences of the same record (in the same or different runs) are
serialized to identical payload bytes in the messages handed to the
client. -/
theorem C8_encoding_pure_deterministic :
    (∀ st : PState, ∀ x : Row, (value_serializerSt st x).2 = st) ∧
    (∀ st1 st2 : PState, ∀ x : Row,
      (value_serializerSt st1 x).1 = (value_serializerSt st2 x).1) ∧
    (∀ st : PState, ∀ x : Row, (value_serializerSt st x).1 = value_serializer x) ∧
    (∀ fs1 fs2 : FileSystem, ∀ rows1 rows2 : List Row, ∀ i j : Nat,
      fs1 churnPath = CsvFile.table rows1 → fs2 churnPath = CsvFile.table rows2 →
      rows1.get? i = rows2.get? j →
      Option.map SentMessage.value ((sentMessages (runScript fs1).1.trace).get? i) =
        Option.map SentMessage.value ((sentMessages (runScript fs2).1.trace).get? j)) := by
  refine ⟨fun st x => rfl, fun st1 st2 x => rfl, fun st x => rfl, ?_⟩
  intro fs1 fs2 rows1 rows2 i j h1 h2 hij
  rw [sentMessages_runScript fs1 rows1 h1, sentMessages_runScript fs2 rows2 h2,
    List.get?_map, List.get?_map, hij]

/-- Claim C8 witness: the same record appearing in two different runs
(and at different offsets) is serialized to the same payload bytes. -/
theorem C8_witness :
    Option.map SentMessage.value
      ((sentMessages (runScript (fun _ =>
        CsvFile.table [[("tenure", Value.vInt 5)]])).1.trace).get? 0) =
    Option.map SentMessage.value
      ((sentMessages (runScript (fun _ =>
        CsvFile.table [[("x", Value.vNull)], [("tenure", Value.vInt 5)]])).1.trace).get? 1) :=
  C8_encoding_pure_deterministic.2.2.2
    (fun _ => CsvFile.table [[("tenure", Value.vInt 5)]])
    (fun _ => CsvFile.table [[("x", Value.vNull)], [("tenure", Value.vInt 5)]])
    [[("tenure", Value.vInt 5)]] [[("x", Value.vNull)], [("tenure", Value.vInt 5)]]
    0 1 rfl rfl rfl

/-- Claim C9: a run leaves the filesystem — in particular the input
CSV file — unchanged, whether the read succeeds or fails: the script
only reads, it never writes. -/
theorem C9_input_file_unchanged :
    ∀ fs : FileSystem, (runScript fs).2 = fs ∧
      (runScript fs).2 churnPath = fs churnPath := by
  intro fs
  have h1 : (runScript fs).2 = fs := by
    unfold runScript
    cases read_csv churnPath fs <;> rfl
  exact ⟨h1, by rw [h1]⟩

/-- Claim C10: for every finite input table the run terminates with a
trace consisting of exactly one send per row in row order, then the
single flush, then the single printed success line — so the flush and
the print happen once each, after all sends. -/
theorem C10_one_pass_flush_print (fs : FileSystem) (rows : List Row)
    (h : fs churnPath = CsvFile.table rows) :
    (runScript fs).1.trace =
      rows.map (fun row => Event.sendEvent (mkMessage row)) ++
        [Event.flushEvent, Event.printEvent successLine] ∧
    (sentMessages (runScript fs).1.trace).length = rows.length ∧
    (runScript fs).1.trace.count Event.flushEvent = 1 ∧
    (runScript fs).1.trace.count (Event.printEvent successLine) = 1 := by
  obtain ⟨htr, -⟩ := runScript_ok fs rows h
  refine ⟨htr, ?_, ?_, ?_⟩
  · rw [sentMessages_runScript fs rows h, List.length_map]
  · rw [htr, List.count_append]
    have h0 : (rows.map (fun row => Event.sendEvent (mkMessage row))).count
        Event.flushEvent = 0 := by
      rw [List.count_eq_zero]
      intro hmem
      simp at hmem
    rw [h0]
    rfl
  · rw [htr, List.count_append]
    have h0 : (rows.map (fun row => Event.sendEvent (mkMessage row))).count
        (Event.printEvent successLine) = 0 := by
      rw [List.count_eq_zero]
      intro hmem
      simp at hmem
    rw [h0]
    rfl

/-- Claim C10 witness at a concrete one-row file. -/
theorem C10_witness :
    (runScript (fun _ => CsvFile.table [[("churn", Value.vBool true)]])).1.trace =
      ([[("churn", Value.vBool true)]] : List Row).map
        (fun row => Event.sendEvent (mkMessage row)) ++
        [Event.flushEvent, Event.printEvent successLine] ∧
    (sentMessages (runScript (fun _ =>
        CsvFile.table [[("churn", Value.vBool true)]])).1.trace).length =
      ([[("churn", Value.vBool true)]] : List Row).length ∧
    (runScript (fun _ =>
        CsvFile.table [[("churn", Value.vBool true)]])).1.trace.count
      Event.flushEvent = 1 ∧
    (runScript (fun _ =>
        CsvFile.table [[("churn", Value.vBool true)]])).1.trace.count
      (Event.printEvent successLine) = 1 :=
  C10_one_pass_flush_print _ _ rfl
